import Mathlib

/-!
Verification of the smart-parking-system repository: a shallow embedding of
`structures.py`, `pricing.py` and `records.py`, with theorems settling the
spec's claims about the waiting queue, the stack parking lane, the FIFO
parking lot, the fee calculator and the record history list.

Embedding conventions:
- A Python list used as a stack is a Lean `List String` in the same
  bottom-to-top order: `list.append(x)` is `++ [x]`, `list.pop()` removes
  the last element, `list[-1]` is the last element.
- A `deque` used front-to-back is a Lean `List String` with the front at
  the head: `append` is `++ [x]`, `popleft` takes the head.
- A stateful method becomes a function from the object to the new object
  paired with the Python return value; a method returning `None` on the
  empty case returns an `Option`.
- `datetime` values are opaque `Nat` timestamps: the embedded code only
  stores them and never computes with them.
-/

namespace SmartParking

/-- Embeds `WaitingQueue` (structures.py): a FIFO queue of plates waiting
to enter; the deque `_q` is held front-first. -/
structure WaitingQueue where
  q : List String
deriving Repr, DecidableEq

/-- Embeds `WaitingQueue.enqueue`: `self._q.append(plate)`. -/
def WaitingQueue.enqueue (w : WaitingQueue) (plate : String) : WaitingQueue :=
  ⟨w.q ++ [plate]⟩

/-- Embeds `WaitingQueue.dequeue`: `None` when empty, otherwise
`self._q.popleft()`. -/
def WaitingQueue.dequeue (w : WaitingQueue) : WaitingQueue × Option String :=
  match w.q with
  | [] => (w, none)
  | x :: rest => (⟨rest⟩, some x)

/-- Embeds `WaitingQueue.peek`: `self._q[0] if self._q else None`. -/
def WaitingQueue.peek (w : WaitingQueue) : Option String :=
  match w.q with
  | [] => none
  | x :: _ => some x

/-- Embeds `WaitingQueue.__len__`. -/
def WaitingQueue.len (w : WaitingQueue) : Nat :=
  w.q.length

/-- Embeds `WaitingQueue.to_list`. -/
def WaitingQueue.to_list (w : WaitingQueue) : List String :=
  w.q

/-- Embeds `StackParkingLane` (structures.py): `_stack` is the Python list
in bottom-to-top order, `capacity` the bound fixed at construction. -/
structure StackParkingLane where
  capacity : Nat
  stack : List String
deriving Repr, DecidableEq

/-- Embeds `StackParkingLane.is_full`: `len(self._stack) >= self.capacity`. -/
def StackParkingLane.is_full (l : StackParkingLane) : Bool :=
  l.capacity ≤ l.stack.length

/-- Embeds `StackParkingLane.is_empty`: `len(self._stack) == 0`. -/
def StackParkingLane.is_empty (l : StackParkingLane) : Bool :=
  l.stack.length = 0

/-- Embeds `StackParkingLane.park`: fail without mutation when full,
otherwise append the plate at the top. -/
def StackParkingLane.park (l : StackParkingLane) (plate : String) :
    StackParkingLane × Bool :=
  if l.is_full then (l, false)
  else (⟨l.capacity, l.stack ++ [plate]⟩, true)

/-- Embeds the first `while` loop of `StackParkingLane.remove`
(`while self._stack and self._stack[-1] != plate: temp.append(self._stack.pop())`),
viewed on the top-first reversal of the stack.  Returns the remaining
stack (top-first), the `temp` list in Python order (earliest pop first),
and the `moves` counter. -/
def removeLoop (plate : String) : List String → List String × List String × Nat
  | [] => ([], [], 0)
  | x :: rest =>
    if x = plate then (x :: rest, [], 0)
    else
      let r := removeLoop plate rest
      (r.1, x :: r.2.1, r.2.2 + 1)

/-- Embeds `StackParkingLane.remove`: absent plate fails with move count 0
and no mutation; otherwise pop vehicles aside until the plate is on top,
pop the plate, and push the set-aside vehicles back
(`while temp: self._stack.append(temp.pop())` appends `temp` reversed). -/
def StackParkingLane.remove (l : StackParkingLane) (plate : String) :
    StackParkingLane × Bool × Nat :=
  if plate ∈ l.stack then
    let r := removeLoop plate l.stack.reverse
    let afterTarget : List String :=
      match r.1 with
      | x :: rest => if x = plate then rest else x :: rest
      | [] => []
    (⟨l.capacity, afterTarget.reverse ++ r.2.1.reverse⟩, true, r.2.2)
  else (l, false, 0)

/-- Embeds `StackParkingLane.snapshot`: the current bottom-to-top order. -/
def StackParkingLane.snapshot (l : StackParkingLane) : List String :=
  l.stack

/-- Embeds `StackParkingLane.empty_spots`. -/
def StackParkingLane.empty_spots (l : StackParkingLane) : Nat :=
  l.capacity - l.stack.length

/-- Embeds `QueueParkingLot` (structures.py): the deque `_q` is held
front-first, `capacity` fixed at construction. -/
structure QueueParkingLot where
  capacity : Nat
  q : List String
deriving Repr, DecidableEq

/-- Embeds `QueueParkingLot.is_full`: `len(self._q) >= self.capacity`. -/
def QueueParkingLot.is_full (lot : QueueParkingLot) : Bool :=
  lot.capacity ≤ lot.q.length

/-- Embeds `QueueParkingLot.park`: fail without mutation when full,
otherwise append the plate at the back. -/
def QueueParkingLot.park (lot : QueueParkingLot) (plate : String) :
    QueueParkingLot × Bool :=
  if lot.is_full then (lot, false)
  else (⟨lot.capacity, lot.q ++ [plate]⟩, true)

/-- Embeds `QueueParkingLot.exit_front`: `None` when empty, otherwise
`self._q.popleft()`. -/
def QueueParkingLot.exit_front (lot : QueueParkingLot) :
    QueueParkingLot × Option String :=
  match lot.q with
  | [] => (lot, none)
  | x :: rest => (⟨lot.capacity, rest⟩, some x)

/-- Embeds `QueueParkingLot.snapshot` (front-to-back order). -/
def QueueParkingLot.snapshot (lot : QueueParkingLot) : List String :=
  lot.q

/-- Embeds `QueueParkingLot.empty_spots`. -/
def QueueParkingLot.empty_spots (lot : QueueParkingLot) : Nat :=
  lot.capacity - lot.q.length

/-- Embeds `calc_fee` (pricing.py), Python defaults `rate_per_hour = 40`,
`min_charge_minutes = 30`.  `math.ceil(bill_minutes / 60)` is exact
ceiling division of the integer `bill_minutes` by 60, rendered on `Nat`
as `(bill_minutes + 59) / 60`. -/
def calc_fee (minutes : Nat) (rate_per_hour : Nat) (min_charge_minutes : Nat) : Nat :=
  let bill_minutes := max minutes min_charge_minutes
  let hours := (bill_minutes + 59) / 60
  hours * rate_per_hour

/-- Embeds `Record` (records.py); `datetime` fields become opaque `Nat`
timestamps. -/
structure Record where
  plate : String
  entry_time : Nat
  exit_time : Nat
  minutes : Nat
  fee : Nat
  mode : String
  moves : Nat
deriving Repr, DecidableEq

/-- Embeds `RecordLinkedList` (records.py): `head` is the chain of nodes
reachable from the head pointer, newest record first; `size` the counter. -/
structure RecordLinkedList where
  head : List Record
  size : Nat
deriving Repr, DecidableEq

/-- Embeds `RecordLinkedList.__init__`. -/
def RecordLinkedList.empty : RecordLinkedList :=
  ⟨[], 0⟩

/-- Embeds `RecordLinkedList.add_front`: a new node becomes the head. -/
def RecordLinkedList.add_front (l : RecordLinkedList) (r : Record) :
    RecordLinkedList :=
  ⟨r :: l.head, l.size + 1⟩

/-- Embeds `RecordLinkedList.to_list`: walk from the head while fewer than
`limit` records are collected (Python default `limit = 20`). -/
def RecordLinkedList.to_list (l : RecordLinkedList) (limit : Nat) : List Record :=
  l.head.take limit

/-- Parking a whole list of plates in order into a FIFO lot; returns the
final lot and whether every single `park` call succeeded. -/
def QueueParkingLot.parkAll (lot : QueueParkingLot) :
    List String → QueueParkingLot × Bool
  | [] => (lot, true)
  | p :: ps =>
    let r := lot.park p
    let rest := QueueParkingLot.parkAll r.1 ps
    (rest.1, r.2 && rest.2)

/-- Repeated `exit_front` calls, `fuel` of them at most, collecting the
exited plates in order and returning the final lot. -/
def QueueParkingLot.drain : Nat → QueueParkingLot → List String × QueueParkingLot
  | 0, lot => ([], lot)
  | fuel + 1, lot =>
    match lot.exit_front with
    | (_, none) => ([], lot)
    | (lot', some p) =>
      let r := QueueParkingLot.drain fuel lot'
      (p :: r.1, r.2)

/-- Adding a whole list of records in order with `add_front`. -/
def RecordLinkedList.addAll (l : RecordLinkedList) (rs : List Record) :
    RecordLinkedList :=
  rs.foldl RecordLinkedList.add_front l

theorem removeLoop_append (plate : String) (l₁ l₂ : List String) (h : plate ∉ l₁) :
    removeLoop plate (l₁ ++ plate :: l₂) = (plate :: l₂, l₁, l₁.length) := by
  induction l₁ with
  | nil => simp [removeLoop]
  | cons x rest ih =>
    simp only [List.mem_cons, not_or] at h
    have hx : x ≠ plate := fun hh => h.1 hh.symm
    simp [removeLoop, hx, ih h.2]

theorem remove_found (cap : Nat) (below above : List String) (plate : String)
    (h : plate ∉ above) :
    StackParkingLane.remove ⟨cap, below ++ plate :: above⟩ plate =
      (⟨cap, below ++ above⟩, true, above.length) := by
  have hmem : plate ∈ below ++ plate :: above := by simp
  have hna : plate ∉ above.reverse := by simpa using h
  have hrev : (below ++ plate :: above).reverse =
      above.reverse ++ plate :: below.reverse := by simp
  unfold StackParkingLane.remove
  rw [if_pos hmem]
  simp [hrev, removeLoop_append plate above.reverse below.reverse hna]

/-- C1: in a single-lane layout holding the plate exactly once (stack
`below ++ plate :: above`, bottom to top, plate in neither side),
`remove plate` succeeds with a move count equal to the number of vehicles
above the target, and the move count is zero exactly when the target was
the top vehicle. -/
theorem C1_remove_move_count (cap : Nat) (below above : List String) (plate : String)
    (_hb : plate ∉ below) (ha : plate ∉ above) :
    ((StackParkingLane.mk cap (below ++ plate :: above)).remove plate).2.1 = true ∧
    ((StackParkingLane.mk cap (below ++ plate :: above)).remove plate).2.2 = above.length ∧
    (((StackParkingLane.mk cap (below ++ plate :: above)).remove plate).2.2 = 0 ↔
      above = []) := by
  rw [remove_found cap below above plate ha]
  simp [List.length_eq_zero]

/-- Witness for C1 at the spec's example: lane [A, B, C] (capacity 3),
`remove A` succeeds with move count 2; the zero-iff-top equivalence holds. -/
theorem C1_remove_move_count_witness :
    (("A" : String) ∉ ([] : List String) ∧ ("A" : String) ∉ ["B", "C"]) ∧
    (((StackParkingLane.mk 3 ([] ++ "A" :: ["B", "C"])).remove "A").2.1 = true ∧
     ((StackParkingLane.mk 3 ([] ++ "A" :: ["B", "C"])).remove "A").2.2 =
       (["B", "C"] : List String).length ∧
     (((StackParkingLane.mk 3 ([] ++ "A" :: ["B", "C"])).remove "A").2.2 = 0 ↔
       (["B", "C"] : List String) = [])) :=
  ⟨⟨by simp, by simp⟩,
   C1_remove_move_count 3 [] ["B", "C"] "A" (by simp) (by simp)⟩

/-- C2: in a single-lane layout holding the plate exactly once, the
snapshot after `remove plate` is the previous snapshot with just that
plate deleted, the relative order of every other vehicle unchanged. -/
theorem C2_remove_restores_order (cap : Nat) (below above : List String) (plate : String)
    (hb : plate ∉ below) (ha : plate ∉ above) :
    ((StackParkingLane.mk cap (below ++ plate :: above)).remove plate).1.snapshot =
      below ++ above ∧
    ((StackParkingLane.mk cap (below ++ plate :: above)).remove plate).1.snapshot =
      ((StackParkingLane.mk cap (below ++ plate :: above)).snapshot).erase plate := by
  rw [remove_found cap below above plate ha]
  refine ⟨rfl, ?_⟩
  simp [StackParkingLane.snapshot, List.erase_append_right _ hb]

/-- Witness for C2 at the spec's example: after `remove A` on lane
[A, B, C] the snapshot is [B, C], i.e. the old snapshot with A erased. -/
theorem C2_remove_restores_order_witness :
    (("A" : String) ∉ ([] : List String) ∧ ("A" : String) ∉ ["B", "C"]) ∧
    (((StackParkingLane.mk 3 ([] ++ "A" :: ["B", "C"])).remove "A").1.snapshot =
      [] ++ ["B", "C"] ∧
     ((StackParkingLane.mk 3 ([] ++ "A" :: ["B", "C"])).remove "A").1.snapshot =
      ((StackParkingLane.mk 3 ([] ++ "A" :: ["B", "C"])).snapshot).erase "A") :=
  ⟨⟨by simp, by simp⟩,
   C2_remove_restores_order 3 [] ["B", "C"] "A" (by simp) (by simp)⟩

/-- C10: when the plate occurs more than once (it also occurs somewhere in
`below`), `remove plate` removes exactly the topmost occurrence: success,
move count equal to the number of vehicles above the topmost occurrence,
and every lower vehicle — lower duplicates of the plate included — keeps
its original relative position. -/
theorem C10_remove_topmost_duplicate (cap : Nat) (below above : List String) (plate : String)
    (_hb : plate ∈ below) (ha : plate ∉ above) :
    (StackParkingLane.mk cap (below ++ plate :: above)).remove plate =
      (⟨cap, below ++ above⟩, true, above.length) :=
  remove_found cap below above plate ha

/-- Witness for C10: lane [A, A, B]; `remove A` takes the upper A with one
move, leaving [A, B] — the lower A still parked at the bottom. -/
theorem C10_remove_topmost_duplicate_witness :
    (("A" : String) ∈ ["A"] ∧ ("A" : String) ∉ ["B"]) ∧
    (StackParkingLane.mk 3 (["A"] ++ "A" :: ["B"])).remove "A" =
      (⟨3, ["A"] ++ ["B"]⟩, true, (["B"] : List String).length) :=
  ⟨⟨by simp, by simp⟩,
   C10_remove_topmost_duplicate 3 ["A"] ["B"] "A" (by simp) (by simp)⟩

/-- C4: a layout at capacity rejects `park` (false, snapshot unchanged);
a layout strictly below capacity accepts it (true), appending the plate
to the top of the lane or the back of the lot. -/
theorem C4_park_capacity (lf lv : StackParkingLane) (qf qv : QueueParkingLot) (p : String)
    (h1 : lf.stack.length = lf.capacity) (h2 : lv.stack.length < lv.capacity)
    (h3 : qf.q.length = qf.capacity) (h4 : qv.q.length < qv.capacity) :
    lf.park p = (lf, false) ∧ (lf.park p).1.snapshot = lf.snapshot ∧
    lv.park p = (⟨lv.capacity, lv.stack ++ [p]⟩, true) ∧
    qf.park p = (qf, false) ∧ (qf.park p).1.snapshot = qf.snapshot ∧
    qv.park p = (⟨qv.capacity, qv.q ++ [p]⟩, true) := by
  have hf : lf.is_full = true := by
    simp [StackParkingLane.is_full, h1.ge]
  have hv : lv.is_full = false := by
    simp [StackParkingLane.is_full]
    omega
  have hqf : qf.is_full = true := by
    simp [QueueParkingLot.is_full, h3.ge]
  have hqv : qv.is_full = false := by
    simp [QueueParkingLot.is_full]
    omega
  simp [StackParkingLane.park, QueueParkingLot.park, hf, hv, hqf, hqv]

/-- Witness for C4: a full 2-lane and a full 1-lot reject the new plate
unchanged; a lane and a lot with a free spot append it. -/
theorem C4_park_capacity_witness :
    ((StackParkingLane.mk 2 ["A", "B"]).stack.length =
        (StackParkingLane.mk 2 ["A", "B"]).capacity ∧
     (StackParkingLane.mk 2 ["A"]).stack.length <
        (StackParkingLane.mk 2 ["A"]).capacity ∧
     (QueueParkingLot.mk 1 ["X"]).q.length = (QueueParkingLot.mk 1 ["X"]).capacity ∧
     (QueueParkingLot.mk 2 []).q.length < (QueueParkingLot.mk 2 []).capacity) ∧
    ((StackParkingLane.mk 2 ["A", "B"]).park "P" = (StackParkingLane.mk 2 ["A", "B"], false) ∧
     ((StackParkingLane.mk 2 ["A", "B"]).park "P").1.snapshot =
        (StackParkingLane.mk 2 ["A", "B"]).snapshot ∧
     (StackParkingLane.mk 2 ["A"]).park "P" = (⟨2, ["A"] ++ ["P"]⟩, true) ∧
     (QueueParkingLot.mk 1 ["X"]).park "P" = (QueueParkingLot.mk 1 ["X"], false) ∧
     ((QueueParkingLot.mk 1 ["X"]).park "P").1.snapshot =
        (QueueParkingLot.mk 1 ["X"]).snapshot ∧
     (QueueParkingLot.mk 2 []).park "P" = (⟨2, [] ++ ["P"]⟩, true)) :=
  ⟨⟨by simp, by simp, by simp, by simp⟩,
   C4_park_capacity ⟨2, ["A", "B"]⟩ ⟨2, ["A"]⟩ ⟨1, ["X"]⟩ ⟨2, []⟩ "P"
     (by simp) (by simp) (by simp) (by simp)⟩

theorem parkAll_all_fit (lot : QueueParkingLot) (ps : List String)
    (h : lot.q.length + ps.length ≤ lot.capacity) :
    lot.parkAll ps = (⟨lot.capacity, lot.q ++ ps⟩, true) := by
  induction ps generalizing lot with
  | nil => simp [QueueParkingLot.parkAll]
  | cons p ps ih =>
    simp only [List.length_cons] at h
    have hnf : lot.is_full = false := by
      simp [QueueParkingLot.is_full]
      omega
    have hstep := ih ⟨lot.capacity, lot.q ++ [p]⟩ (by simp; omega)
    simp [QueueParkingLot.parkAll, QueueParkingLot.park, hnf, hstep]

theorem drain_all (lot : QueueParkingLot) :
    QueueParkingLot.drain lot.q.length lot = (lot.q, ⟨lot.capacity, []⟩) := by
  obtain ⟨cap, q⟩ := lot
  induction q with
  | nil => rfl
  | cons x rest ih =>
    simp only [List.length_cons, QueueParkingLot.drain, QueueParkingLot.exit_front, ih]

/-- C5: parking any list of plates that fits the capacity into an empty
FIFO lot succeeds call by call, draining with `exit_front` returns the
plates in exactly their arrival order, and the next `exit_front` then
signals empty. -/
theorem C5_fifo_ordering (cap : Nat) (ps : List String) (h : ps.length ≤ cap) :
    ((QueueParkingLot.mk cap []).parkAll ps).2 = true ∧
    (QueueParkingLot.drain ps.length ((QueueParkingLot.mk cap []).parkAll ps).1).1 = ps ∧
    (QueueParkingLot.drain ps.length
        ((QueueParkingLot.mk cap []).parkAll ps).1).2.exit_front =
      ((QueueParkingLot.drain ps.length ((QueueParkingLot.mk cap []).parkAll ps).1).2,
       none) := by
  have hp := parkAll_all_fit ⟨cap, []⟩ ps (by simpa using h)
  have hd := drain_all ⟨cap, ps⟩
  refine ⟨by simp [hp], by simp [hp, hd], ?_⟩
  simp [hp, hd, QueueParkingLot.exit_front]

/-- Witness for C5: plates [A, B, C] parked into an empty 3-capacity FIFO
lot drain back as A, B, C, and a fourth `exit_front` signals empty. -/
theorem C5_fifo_ordering_witness :
    (["A", "B", "C"] : List String).length ≤ 3 ∧
    (((QueueParkingLot.mk 3 []).parkAll ["A", "B", "C"]).2 = true ∧
     (QueueParkingLot.drain (["A", "B", "C"] : List String).length
        ((QueueParkingLot.mk 3 []).parkAll ["A", "B", "C"]).1).1 = ["A", "B", "C"] ∧
     (QueueParkingLot.drain (["A", "B", "C"] : List String).length
        ((QueueParkingLot.mk 3 []).parkAll ["A", "B", "C"]).1).2.exit_front =
       ((QueueParkingLot.drain (["A", "B", "C"] : List String).length
          ((QueueParkingLot.mk 3 []).parkAll ["A", "B", "C"]).1).2, none)) :=
  ⟨by simp, C5_fifo_ordering 3 ["A", "B", "C"] (by simp)⟩

/-- C6: every absent/empty case is a plain result with no mutation:
`remove` of an absent plate returns (failure, 0 moves) on an unchanged
lane; `dequeue` and `peek` on an empty waiting line return the empty
signal and leave it empty; `exit_front` on an empty FIFO lot does too. -/
theorem C6_absent_empty_cases (l : StackParkingLane) (p : String) (w : WaitingQueue)
    (lot : QueueParkingLot) (hp : p ∉ l.stack) (hw : w.q = []) (hq : lot.q = []) :
    l.remove p = (l, false, 0) ∧
    w.dequeue = (w, none) ∧ w.peek = none ∧
    lot.exit_front = (lot, none) := by
  obtain ⟨wq⟩ := w
  obtain ⟨cap, q⟩ := lot
  subst hw
  subst hq
  refine ⟨?_, rfl, rfl, rfl⟩
  simp [StackParkingLane.remove, hp]

/-- Witness for C6 at concrete states: plate B absent from lane [A], an
empty waiting line, an empty FIFO lot. -/
theorem C6_absent_empty_cases_witness :
    (("B" : String) ∉ (StackParkingLane.mk 3 ["A"]).stack ∧
     (WaitingQueue.mk []).q = [] ∧ (QueueParkingLot.mk 2 []).q = []) ∧
    ((StackParkingLane.mk 3 ["A"]).remove "B" = (StackParkingLane.mk 3 ["A"], false, 0) ∧
     (WaitingQueue.mk []).dequeue = (WaitingQueue.mk [], none) ∧
     (WaitingQueue.mk []).peek = none ∧
     (QueueParkingLot.mk 2 []).exit_front = (QueueParkingLot.mk 2 [], none)) :=
  ⟨⟨by simp, rfl, rfl⟩,
   C6_absent_empty_cases ⟨3, ["A"]⟩ "B" ⟨[]⟩ ⟨2, []⟩ (by simp) rfl rfl⟩

theorem nat_ceil_div_sixty (a : Nat) : ⌈(a : ℚ) / 60⌉ = ((a + 59) / 60 : ℕ) := by
  have hd := Nat.div_add_mod (a + 59) 60
  have hm : (a + 59) % 60 < 60 := Nat.mod_lt _ (by norm_num)
  obtain ⟨k, hk⟩ : ∃ k, (a + 59) / 60 = k := ⟨_, rfl⟩
  rw [hk] at hd ⊢
  have n1Q : (a : ℚ) ≤ 60 * k := by
    have : a ≤ 60 * k := by omega
    exact_mod_cast this
  have n2Q : (60 : ℚ) * k < a + 60 := by
    have : 60 * k < a + 60 := by omega
    exact_mod_cast this
  rw [Int.ceil_eq_iff]
  constructor
  · rw [lt_div_iff₀ (by norm_num : (0 : ℚ) < 60)]
    push_cast
    linarith
  · rw [div_le_iff₀ (by norm_num : (0 : ℚ) < 60)]
    push_cast
    linarith

/-- C3: the fee is exact-ceiling billing: `calc_fee m r c` equals
`⌈max(m, c) / 60⌉ * r` with a true mathematical ceiling, and the spec's
three sample points evaluate to 80, 40 and 40. -/
theorem C3_calc_fee_formula (m r c : Nat) :
    (calc_fee m r c : ℤ) = ⌈((max m c : ℕ) : ℚ) / 60⌉ * r ∧
    calc_fee 61 40 30 = 80 ∧ calc_fee 29 40 30 = 40 ∧ calc_fee 60 40 30 = 40 := by
  refine ⟨?_, rfl, rfl, rfl⟩
  rw [nat_ceil_div_sixty]
  simp only [calc_fee]
  push_cast
  ring

/-- C7: the fee is monotone in the elapsed duration for any fixed rate and
minimum-charge minutes. -/
theorem C7_fee_monotone (d1 d2 r c : Nat) (h : d1 ≤ d2) :
    calc_fee d1 r c ≤ calc_fee d2 r c := by
  simp only [calc_fee]
  have h1 : max d1 c ≤ max d2 c := max_le_max h le_rfl
  exact Nat.mul_le_mul_right _ (Nat.div_le_div_right (Nat.add_le_add_right h1 59))

/-- Witness for C7: a 10-minute stay costs no more than a 120-minute stay
at rate 40 with a 30-minute floor. -/
theorem C7_fee_monotone_witness :
    10 ≤ 120 ∧ calc_fee 10 40 30 ≤ calc_fee 120 40 30 :=
  ⟨by decide, C7_fee_monotone 10 120 40 30 (by decide)⟩

/-- C8 counterexample: rate 40 and minimum-charge minutes 0 are both
accepted by the configuration contract (non-negative integers), yet a
zero-minute visit is billed 0 — the claim's "never zero" fails. -/
theorem C8_never_zero_counterexample : calc_fee 0 40 0 = 0 := rfl

/-- C8 amended: for every accepted (non-negative) rate and minimum-charge
minutes, `calc_fee 0 r c` bills the minimum charge — it unconditionally
equals `calc_fee c r c` — and the result is nonzero provided the hourly
rate and the minimum-charge minutes are both positive. -/
theorem C8_min_charge_floor (r c : Nat) :
    calc_fee 0 r c = calc_fee c r c ∧ (1 ≤ r → 1 ≤ c → 1 ≤ calc_fee 0 r c) := by
  constructor
  · simp [calc_fee]
  · intro hr hc
    simp only [calc_fee, Nat.zero_max]
    have h1 : 1 ≤ (c + 59) / 60 := by
      rw [Nat.le_div_iff_mul_le (by norm_num)]
      omega
    exact Nat.mul_le_mul h1 hr

/-- Witness for C8 amended at the Python defaults rate 40, minimum 30:
the minimum-charge equality holds and the fee is nonzero. -/
theorem C8_min_charge_floor_witness :
    calc_fee 0 40 30 = calc_fee 30 40 30 ∧ 1 ≤ calc_fee 0 40 30 :=
  ⟨(C8_min_charge_floor 40 30).1,
   (C8_min_charge_floor 40 30).2 (by decide) (by decide)⟩

theorem addAll_head (l : RecordLinkedList) (rs : List Record) :
    (l.addAll rs).head = rs.reverse ++ l.head := by
  induction rs generalizing l with
  | nil => rfl
  | cons r rs ih =>
    show ((l.add_front r).addAll rs).head = (r :: rs).reverse ++ l.head
    rw [ih]
    simp [RecordLinkedList.add_front]

/-- C9: filling the history by `add_front` calls in insertion order and
reading back with a positive `limit` yields the `min limit count` most
recently added records, most recent first (the reversed insertion order,
truncated at `limit`). -/
theorem C9_history_bounded (rs : List Record) (limit : Nat) (_hl : 0 < limit) :
    (RecordLinkedList.empty.addAll rs).to_list limit = rs.reverse.take limit ∧
    ((RecordLinkedList.empty.addAll rs).to_list limit).length = min limit rs.length := by
  have h : (RecordLinkedList.empty.addAll rs).head = rs.reverse := by
    simpa [RecordLinkedList.empty] using addAll_head RecordLinkedList.empty rs
  constructor
  · simp [RecordLinkedList.to_list, h]
  · simp [RecordLinkedList.to_list, h, List.length_take]

/-- Witness for C9: after adding 25 distinct records, `to_list 20` is the
last 20 insertions newest-first and has length exactly 20. -/
theorem C9_history_bounded_witness :
    0 < 20 ∧
    ((RecordLinkedList.empty.addAll
        ((List.range 25).map fun i => Record.mk (toString i) i (i + 1) 1 40 "QUEUE" 0)).to_list 20 =
      ((List.range 25).map fun i => Record.mk (toString i) i (i + 1) 1 40 "QUEUE" 0).reverse.take 20 ∧
     ((RecordLinkedList.empty.addAll
        ((List.range 25).map fun i => Record.mk (toString i) i (i + 1) 1 40 "QUEUE" 0)).to_list 20).length =
      min 20 ((List.range 25).map fun i => Record.mk (toString i) i (i + 1) 1 40 "QUEUE" 0).length) :=
  ⟨by decide,
   C9_history_bounded ((List.range 25).map fun i => Record.mk (toString i) i (i + 1) 1 40 "QUEUE" 0)
     20 (by decide)⟩

end SmartParking
